import Mathlib

/-!
Verification of the RaceForge/track-the-leader motion-compensation core.

This file gives a shallow embedding, over exact rationals, of the two
engines of the repository:

* `HomographyService` (camera-motion stabilization via cached per-frame
  3x3 homographies), from `src/app/services/homography.service.ts`;
* `MotionTrackingService` (per-object template re-localization), from
  `src/app/services/motion-tracking.service.ts`.

External OpenCV primitives (feature detection, descriptor matching,
RANSAC fitting, template matching) are dynamically loaded library
functions in the source (`declare const cv: any`); the embedding
abstracts them as a backend record of fallible functions, and all
repository-owned control flow, arithmetic, thresholds and caching are
translated directly.  JavaScript `number` arithmetic is modelled by the
rationals; `Math.round` is modelled by round-half-up.
-/

/-- A 2D point, `type Point2D = { x: number; y: number }`. -/
structure Point2D where
  x : ℚ
  y : ℚ
deriving DecidableEq, Repr

/-- A bounding box, `type BBox = [number, number, number, number]`,
in the order x, y, width, height. -/
structure BBox where
  x : ℚ
  y : ℚ
  w : ℚ
  h : ℚ
deriving DecidableEq, Repr

/-- A 3x3 homography matrix, `type Homography = number[][]`; field
`hRC` is row R, column C of the matrix. -/
@[ext]
structure Homography where
  h00 : ℚ
  h01 : ℚ
  h02 : ℚ
  h10 : ℚ
  h11 : ℚ
  h12 : ℚ
  h20 : ℚ
  h21 : ℚ
  h22 : ℚ
deriving DecidableEq, Repr

/-- An RGBA pixel buffer (the DOM `ImageData`): width, height, and an
opaque pixel payload consumed only by the vision backend. -/
structure ImageData where
  width : ℕ
  height : ℕ
  data : List ℕ
deriving DecidableEq, Repr

/-- A binary ORB descriptor row. -/
abbrev Desc := List ℕ

/-- An OpenCV feature match (`interface CVMatch`): index into the
current-frame keypoints, index into the reference keypoints, and the
Hamming descriptor distance. -/
structure CVMatch where
  queryIdx : ℕ
  trainIdx : ℕ
  distance : ℚ
deriving DecidableEq, Repr

/-- The singular-matrix guard used throughout the service, `1e-10`. -/
def eps : ℚ := 1 / 10 ^ 10

/-- `getIdentityHomography()`: the identity matrix. -/
def getIdentityHomography : Homography :=
  ⟨1, 0, 0, 0, 1, 0, 0, 0, 1⟩

/-- Determinant of a 3x3 homography, exactly as computed at the top of
`invertHomography`. -/
def detH (H : Homography) : ℚ :=
  H.h00 * (H.h11 * H.h22 - H.h12 * H.h21) -
    H.h01 * (H.h10 * H.h22 - H.h12 * H.h20) +
    H.h02 * (H.h10 * H.h21 - H.h11 * H.h20)

/-- `invertHomography(H)`: closed-form adjugate/determinant inversion;
`null` when the determinant is within `1e-10` of zero. -/
def invertHomography (H : Homography) : Option Homography :=
  let det := detH H
  if |det| < eps then none
  else
    let invDet := 1 / det
    some
      ⟨invDet * (H.h11 * H.h22 - H.h12 * H.h21),
       invDet * (H.h02 * H.h21 - H.h01 * H.h22),
       invDet * (H.h01 * H.h12 - H.h02 * H.h11),
       invDet * (H.h12 * H.h20 - H.h10 * H.h22),
       invDet * (H.h00 * H.h22 - H.h02 * H.h20),
       invDet * (H.h02 * H.h10 - H.h00 * H.h12),
       invDet * (H.h10 * H.h21 - H.h11 * H.h20),
       invDet * (H.h01 * H.h20 - H.h00 * H.h21),
       invDet * (H.h00 * H.h11 - H.h01 * H.h10)⟩

/-- `applyHomography(point, H)`: projective application with the
near-zero-denominator guard returning the input point. -/
def applyHomography (point : Point2D) (H : Homography) : Point2D :=
  let x := point.x
  let y := point.y
  let w := H.h20 * x + H.h21 * y + H.h22
  if |w| < eps then point
  else
    ⟨(H.h00 * x + H.h01 * y + H.h02) / w,
     (H.h10 * x + H.h11 * y + H.h12) / w⟩

/-- The vision backend: the OpenCV primitives the service calls.  Each
is fallible (`Except Unit`), modelling that any `cv` call may throw;
determinism given identical input matches §4.1 of the design. -/
structure CvBackend where
  gray : ImageData → Except Unit ImageData
  detectAndCompute : ImageData → Except Unit (List Point2D × List Desc)
  matchDesc : List Desc → List Desc → Except Unit (List CVMatch)
  findHomography : List (Point2D × Point2D) → Except Unit (Option Homography)

/-- The mutable fields of `HomographyService`.  `homographies` is the
frame-indexed cache; the reference keypoints/descriptors are the
private ORB state.  `cvReady` is the OpenCV-loaded flag (set externally
by the load poll, never changed by the modelled operations). -/
structure HomographyState where
  homographies : ℤ → Option Homography
  referenceFrameIndex : Option ℤ
  referenceFrameImage : Option ImageData
  referenceKeypoints : Option (List Point2D)
  referenceDescriptors : Option (List Desc)
  currentFrameIndex : ℤ
  cvReady : Bool

/-- The state of a freshly constructed service. -/
def initState (ready : Bool) : HomographyState :=
  ⟨fun _ => none, none, none, none, none, 0, ready⟩

/-- Store a matrix in the cache under a frame index (`Map.set`). -/
def setHFun (cache : ℤ → Option Homography) (frameIndex : ℤ) (H : Homography) :
    ℤ → Option Homography :=
  fun m => if m = frameIndex then some H else cache m

/-- The test `!this.referenceDescriptors || this.referenceDescriptors.empty?.()`. -/
def refDescriptorsMissing (s : HomographyState) : Bool :=
  match s.referenceDescriptors with
  | none => true
  | some d => d.isEmpty

/-- `setReferenceFrame(frameIndex, imageData)`: records the index and
image, then (when OpenCV is ready) extracts ORB keypoints/descriptors;
the fresh `KeyPointVector`/`Mat` are assigned before detection runs, so
a throwing `detectAndCompute` leaves them empty, while a throw during
grayscale conversion leaves the previous reference features in place. -/
def setReferenceFrame (B : CvBackend) (s : HomographyState) (frameIndex : ℤ)
    (imageData : ImageData) : HomographyState :=
  let s1 := { s with
    referenceFrameIndex := some frameIndex
    referenceFrameImage := some imageData }
  if !s1.cvReady then s1
  else
    match B.gray imageData with
    | .error _ => s1
    | .ok g =>
      let s2 := { s1 with
        referenceKeypoints := some []
        referenceDescriptors := some ([] : List Desc) }
      match B.detectAndCompute g with
      | .error _ => s2
      | .ok (kps, descs) =>
        { s2 with
          referenceKeypoints := some kps
          referenceDescriptors := some descs }

/-- The backward scan of `getLastValidHomography`, indices
`frameIndex - 1` down to `0`, as a recursion on the number of indices
left to inspect. -/
def scanBackAux (cache : ℤ → Option Homography) : ℕ → Option Homography
  | 0 => none
  | m + 1 =>
    match cache (m : ℤ) with
    | some H => some H
    | none => scanBackAux cache m

/-- First cached entry found scanning `frameIndex - 1, ..., 0`. -/
def scanBack (cache : ℤ → Option Homography) (frameIndex : ℤ) : Option Homography :=
  scanBackAux cache frameIndex.toNat

/-- `getLastValidHomography(frameIndex)`: re-cache and return the first
entry found scanning backward, or cache and return identity. -/
def getLastValidHomography (s : HomographyState) (frameIndex : ℤ) :
    Homography × HomographyState :=
  match scanBack s.homographies frameIndex with
  | some H => (H, { s with homographies := setHFun s.homographies frameIndex H })
  | none =>
    let identity := getIdentityHomography
    (identity, { s with homographies := setHFun s.homographies frameIndex identity })

/-- The point-correspondence extraction loop of `computeHomography`:
keep a (current, reference) pair for each good match whose keypoint
indices are in range. -/
def correspondences (goodMatches : List CVMatch) (currentKeypoints refKeypoints : List Point2D) :
    List (Point2D × Point2D) :=
  goodMatches.filterMap fun m =>
    match currentKeypoints.get? m.queryIdx, refKeypoints.get? m.trainIdx with
    | some c, some r => some (c, r)
    | _, _ => none

/-- The `try` block of `computeHomography`: detect, match, filter by the
distance-50 threshold, fit with RANSAC; every documented failure branch
resolves through `getLastValidHomography`, and a thrown error escapes
as `Except.error` to the surrounding catch. -/
def computeHomographyTry (B : CvBackend) (s : HomographyState) (frameIndex : ℤ)
    (currentImage : ImageData) : Except Unit (Homography × HomographyState) := do
  let currentGray ← B.gray currentImage
  let (currentKeypoints, currentDescriptors) ← B.detectAndCompute currentGray
  if currentDescriptors.isEmpty || currentKeypoints.length < 4 then
    return getLastValidHomography s frameIndex
  let allMatches ← B.matchDesc currentDescriptors (s.referenceDescriptors.getD [])
  let goodMatches := allMatches.filter fun m => m.distance < 50
  if goodMatches.length < 4 then
    return getLastValidHomography s frameIndex
  let pts := correspondences goodMatches currentKeypoints (s.referenceKeypoints.getD [])
  let fitted ← B.findHomography pts
  match fitted with
  | none => return getLastValidHomography s frameIndex
  | some H => return (H, { s with homographies := setHFun s.homographies frameIndex H })

/-- `computeHomography(frameIndex, currentImage)`: identity for the
reference frame (exact integer equality), identity when OpenCV or the
reference descriptors are unavailable, otherwise the matching pipeline
with the catch-all fallback to `getLastValidHomography`. -/
def computeHomography (B : CvBackend) (s : HomographyState) (frameIndex : ℤ)
    (currentImage : ImageData) : Homography × HomographyState :=
  if s.referenceFrameIndex = some frameIndex then
    let identity := getIdentityHomography
    (identity, { s with homographies := setHFun s.homographies frameIndex identity })
  else if !s.cvReady || refDescriptorsMissing s then
    let identity := getIdentityHomography
    (identity, { s with homographies := setHFun s.homographies frameIndex identity })
  else
    match computeHomographyTry B s frameIndex currentImage with
    | .ok r => r
    | .error _ => getLastValidHomography s frameIndex

/-- `getHomography(frameIndex)`: cached entry or `null`. -/
def getHomography (s : HomographyState) (frameIndex : ℤ) : Option Homography :=
  s.homographies frameIndex

/-- `mapToReference(point, frameIndex)`. -/
def mapToReference (s : HomographyState) (point : Point2D) (frameIndex : ℤ) :
    Option Point2D :=
  match getHomography s frameIndex with
  | none => none
  | some H => some (applyHomography point H)

/-- `mapToCurrent(point, frameIndex)`: inverse transform, `null` when
no entry exists or the matrix is singular. -/
def mapToCurrent (s : HomographyState) (point : Point2D) (frameIndex : ℤ) :
    Option Point2D :=
  match getHomography s frameIndex with
  | none => none
  | some H =>
    match invertHomography H with
    | none => none
    | some Hinv => some (applyHomography point Hinv)

/-- `transformTrackLine(trackLine, frameIndex)`: map every point by the
inverse homography; return the input unchanged when no entry exists or
the matrix is singular. -/
def transformTrackLine (s : HomographyState) (trackLine : List Point2D)
    (frameIndex : ℤ) : List Point2D :=
  match getHomography s frameIndex with
  | none => trackLine
  | some H =>
    match invertHomography H with
    | none => trackLine
    | some Hinv => trackLine.map fun point => applyHomography point Hinv

/-- The service's `clear()`: empties the homography cache and resets the
reference index/image signals and the current frame index.  The private
`referenceKeypoints`/`referenceDescriptors` fields are not touched by
the source's `clear`. -/
def clearService (s : HomographyState) : HomographyState :=
  { s with
    homographies := fun _ => none
    referenceFrameIndex := none
    referenceFrameImage := none
    currentFrameIndex := 0 }

/-- JavaScript `Math.round`: round half toward positive infinity. -/
def jsRound (q : ℚ) : ℤ := ⌊q + 1 / 2⌋

/-- A stored grayscale template patch (`cv.Mat` dimensions; the pixel
payload is consumed only by the backend's template matcher). -/
structure Template where
  cols : ℕ
  rows : ℕ
deriving DecidableEq, Repr

/-- The search rectangle cut from the current frame. -/
structure SearchRect where
  x0 : ℤ
  y0 : ℤ
  w : ℤ
  h : ℤ
deriving DecidableEq, Repr

/-- Result of `cv.minMaxLoc` over the correlation surface. -/
structure MinMaxResult where
  maxVal : ℚ
  maxLocX : ℤ
  maxLocY : ℤ
deriving DecidableEq, Repr

/-- The tracking backend: grayscale conversion plus the combined
`cv.matchTemplate`/`cv.minMaxLoc` step over a search rectangle of the
frame; either may throw. -/
structure TrackBackend where
  gray : ImageData → Except Unit Unit
  minMax : ImageData → SearchRect → Template → Except Unit MinMaxResult

/-- `readonly trackingSearchMultiplier = 2.0`. -/
def trackingSearchMultiplier : ℚ := 2

/-- `readonly trackingConfidenceThreshold = 0.7`. -/
def trackingConfidenceThreshold : ℚ := 7 / 10

/-- A user-marked object (`interface CarSelection`). -/
structure CarSelection where
  id : ℤ
  center : Point2D
  bbox : BBox
deriving DecidableEq, Repr

/-- The `trackingTemplates` map, id to template. -/
abbrev TemplateMap := List (ℤ × Template)

/-- `this.trackingTemplates.get(sel.id)`. -/
def lookupTemplate (templates : TemplateMap) (id : ℤ) : Option Template :=
  (templates.find? fun e => e.1 = id).map Prod.snd

/-- The search-window computation of `updateTrackedPositions`: bbox
width/height scaled by the search multiplier and clamped to the frame,
positioned around the object's center with the lower corner clamped at
zero, then clipped at the frame's far edges. -/
def searchWindow (frameData : ImageData) (sel : CarSelection) : SearchRect :=
  let searchW := min (jsRound (sel.bbox.w * trackingSearchMultiplier)) (frameData.width : ℤ)
  let searchH := min (jsRound (sel.bbox.h * trackingSearchMultiplier)) (frameData.height : ℤ)
  let x0 := max 0 (jsRound (sel.center.x - (searchW : ℚ) / 2))
  let y0 := max 0 (jsRound (sel.center.y - (searchH : ℚ) / 2))
  let x1 := min (frameData.width : ℤ) (x0 + searchW)
  let y1 := min (frameData.height : ℤ) (y0 + searchH)
  ⟨x0, y0, x1 - x0, y1 - y0⟩

/-- The per-object body of the `updateTrackedPositions` loop: pass
through objects without a template or whose clipped window is smaller
than the template; otherwise search and accept the best location only
when its score clears the confidence threshold. -/
def updateOne (B : TrackBackend) (frameData : ImageData) (templates : TemplateMap)
    (sel : CarSelection) : Except Unit CarSelection :=
  match lookupTemplate templates sel.id with
  | none => .ok sel
  | some template =>
    let R := searchWindow frameData sel
    if R.w < (template.cols : ℤ) || R.h < (template.rows : ℤ) then .ok sel
    else
      let resultCols := R.w - template.cols + 1
      let resultRows := R.h - template.rows + 1
      if resultCols ≤ 0 || resultRows ≤ 0 then .ok sel
      else do
        let mm ← B.minMax frameData R template
        if mm.maxVal < trackingConfidenceThreshold then return sel
        else
          let newTopLeftX := R.x0 + mm.maxLocX
          let newTopLeftY := R.y0 + mm.maxLocY
          return { id := sel.id
                   center :=
                     ⟨(newTopLeftX : ℚ) + (template.cols : ℚ) / 2,
                      (newTopLeftY : ℚ) + (template.rows : ℚ) / 2⟩
                   bbox :=
                     ⟨(newTopLeftX : ℚ), (newTopLeftY : ℚ),
                      (template.cols : ℚ), (template.rows : ℚ)⟩ }

/-- The whole `try` block of `updateTrackedPositions`: grayscale
conversion followed by the per-object loop. -/
def updateBatch (B : TrackBackend) (frameData : ImageData) (templates : TemplateMap)
    (selections : List CarSelection) : Except Unit (List CarSelection) := do
  let _ ← B.gray frameData
  selections.mapM (updateOne B frameData templates)

/-- `updateTrackedPositions(frameData, selections)`: early out when no
templates are held; the surrounding catch returns the input selections
unchanged when anything in the batch throws. -/
def updateTrackedPositions (B : TrackBackend) (templates : TemplateMap)
    (frameData : ImageData) (selections : List CarSelection) : List CarSelection :=
  if templates.length = 0 then selections
  else
    match updateBatch B frameData templates selections with
    | .ok updated => updated
    | .error _ => selections

/-- One public operation on the `HomographyService`. -/
inductive Op where
  | setRef (frameIndex : ℤ) (image : ImageData)
  | compute (frameIndex : ℤ) (image : ImageData)
  | getH (frameIndex : ℤ)
  | clearOp

/-- The state transition of one operation. -/
def stepOp (B : CvBackend) (s : HomographyState) : Op → HomographyState
  | .setRef n img => setReferenceFrame B s n img
  | .compute n img => (computeHomography B s n img).2
  | .getH _ => s
  | .clearOp => clearService s

/-- Run a sequence of operations from a state. -/
def runOps (B : CvBackend) (s : HomographyState) (ops : List Op) : HomographyState :=
  ops.foldl (stepOp B) s

/-- Whether an operation is a `setReferenceFrame` call. -/
def isSetRef : Op → Bool
  | .setRef _ _ => true
  | _ => false

/-- Number of `setReferenceFrame` calls in a sequence. -/
def countSetRef (ops : List Op) : ℕ := (ops.filter isSetRef).length

/-- A concrete 100x100 frame used in concrete scenarios. -/
def img0 : ImageData := ⟨100, 100, [0]⟩

/-- Four concrete keypoints. -/
def pts4 : List Point2D := [⟨0, 0⟩, ⟨10, 0⟩, ⟨0, 10⟩, ⟨10, 10⟩]

/-- Four concrete descriptor rows. -/
def descs4 : List Desc := [[0], [1], [2], [3]]

/-- Four concrete matches, all under the distance-50 threshold. -/
def matches4 : List CVMatch := [⟨0, 0, 10⟩, ⟨1, 1, 10⟩, ⟨2, 2, 10⟩, ⟨3, 3, 10⟩]

/-- A concrete non-identity fitted homography (uniform scale by 2). -/
def fittedH : Homography := ⟨2, 0, 0, 0, 2, 0, 0, 0, 1⟩

/-- A concrete backend whose pipeline always succeeds with four good
correspondences and fits `fittedH`. -/
def cvB : CvBackend :=
  ⟨fun i => .ok i,
   fun _ => .ok (pts4, descs4),
   fun _ _ => .ok matches4,
   fun _ => .ok (some fittedH)⟩

/-- A concrete backend that finds a single keypoint, so that fitting
always falls back. -/
def cvBfail : CvBackend :=
  ⟨fun i => .ok i,
   fun _ => .ok ([⟨0, 0⟩], [[0]]),
   fun _ _ => .ok [],
   fun _ => .ok none⟩

/-- A well-formed homography (uniform scale by 10000, determinant
10^12) whose inverse fails the determinant guard. -/
def bigH : Homography := ⟨10000, 0, 0, 0, 10000, 0, 0, 0, 10000⟩

/-- The matrix of a `Homography` value, for relating the service's
closed-form inversion to the standard adjugate inverse. -/
def toMatrix (H : Homography) : Matrix (Fin 3) (Fin 3) ℚ :=
  !![H.h00, H.h01, H.h02; H.h10, H.h11, H.h12; H.h20, H.h21, H.h22]

/-- The fallback triggers of `computeHomography`, following its
documented failure branches: a thrown backend call, an empty current
descriptor set or fewer than four current keypoints, fewer than four
matches surviving the distance-50 filter, or a degenerate (empty)
RANSAC fit. -/
def fallsBack (B : CvBackend) (s : HomographyState) (currentImage : ImageData) : Prop :=
  B.gray currentImage = .error ()
  ∨ ∃ g, B.gray currentImage = .ok g ∧
      (B.detectAndCompute g = .error ()
       ∨ ∃ kps descs, B.detectAndCompute g = .ok (kps, descs) ∧
           (descs.isEmpty = true
            ∨ kps.length < 4
            ∨ B.matchDesc descs (s.referenceDescriptors.getD []) = .error ()
            ∨ ∃ ms, B.matchDesc descs (s.referenceDescriptors.getD []) = .ok ms ∧
                ((ms.filter fun m => m.distance < 50).length < 4
                 ∨ B.findHomography (correspondences (ms.filter fun m => m.distance < 50)
                     kps (s.referenceKeypoints.getD [])) = .error ()
                 ∨ B.findHomography (correspondences (ms.filter fun m => m.distance < 50)
                     kps (s.referenceKeypoints.getD [])) = .ok none)))

/-- The state after locking frame 0 as reference and fitting frame 3
successfully with the always-succeeding backend. -/
def fallbackStateExample : HomographyState :=
  (computeHomography cvB (setReferenceFrame cvB (initState true) 0 img0) 3 img0).2

/-- Every cached entry is the identity matrix. -/
def allIdentity (s : HomographyState) : Prop :=
  ∀ m H, s.homographies m = some H → H = getIdentityHomography

/-- Invariant of states that have never seen a `setReferenceFrame`: no
reference state, and only identity entries in the cache. -/
def noRefYet (s : HomographyState) : Prop :=
  s.referenceDescriptors = none ∧ s.referenceFrameIndex = none ∧ allIdentity s

/-- The claimed invariant: the reference frame's own cache entry, when
present, is the identity matrix. -/
def refEntryIdentity (s : HomographyState) : Prop :=
  ∀ r H, s.referenceFrameIndex = some r → s.homographies r = some H →
    H = getIdentityHomography

/-- A template for a small object and a template for a larger one. -/
def tpl5 : Template := ⟨5, 5⟩

/-- The 10x10 template used in the concrete tracker scenarios. -/
def tpl10 : Template := ⟨10, 10⟩

/-- An object whose bounding box matches `tpl5`. -/
def sel1 : CarSelection := ⟨1, ⟨50, 50⟩, ⟨45, 45, 5, 5⟩⟩

/-- An object whose bounding box matches `tpl10`. -/
def sel2 : CarSelection := ⟨2, ⟨50, 50⟩, ⟨45, 45, 10, 10⟩⟩

/-- Template map holding both concrete templates. -/
def templatesTwo : TemplateMap := [(1, tpl5), (2, tpl10)]

/-- A backend reporting a best score of exactly 0.69. -/
def trackB69 : TrackBackend :=
  ⟨fun _ => .ok (), fun _ _ _ => .ok ⟨69 / 100, 3, 3⟩⟩

/-- A backend accepting with full confidence at offset (3, 3). -/
def trackBacc : TrackBackend :=
  ⟨fun _ => .ok (), fun _ _ _ => .ok ⟨1, 3, 3⟩⟩

/-- A backend that throws while searching for the 5x5 template and
accepts the 10x10 template with full confidence at offset (3, 3). -/
def trackBthrow : TrackBackend :=
  ⟨fun _ => .ok (),
   fun _ _ tpl => if tpl.cols = 5 then .error () else .ok ⟨1, 3, 3⟩⟩

/-- An object whose bounding box (width 10.4) differs from its stored
10x10 template. -/
def sel84 : CarSelection := ⟨1, ⟨50, 50⟩, ⟨40, 40, 52 / 5, 52 / 5⟩⟩

/-- Template map giving `sel84` the 10x10 template. -/
def templates84 : TemplateMap := [(1, tpl10)]

/-- If the determinant is within the singular guard, inversion is
`null`. -/
theorem invertHomography_eq_none_of_det_small (H : Homography)
    (h : |detH H| < eps) : invertHomography H = none := by
  unfold invertHomography
  simp [h]

/-- Claim C2: `transformTrackLine` always returns a list of the same
length as its input, and it returns the input list itself whenever no
homography is cached for the frame or the cached matrix fails the
`1e-10` determinant guard. -/
theorem transformTrackLine_length_and_passthrough (s : HomographyState)
    (trackLine : List Point2D) (frameIndex : ℤ) :
    (transformTrackLine s trackLine frameIndex).length = trackLine.length
    ∧ (getHomography s frameIndex = none →
        transformTrackLine s trackLine frameIndex = trackLine)
    ∧ ∀ H, getHomography s frameIndex = some H → |detH H| < eps →
        transformTrackLine s trackLine frameIndex = trackLine := by
  refine ⟨?_, ?_, ?_⟩
  · unfold transformTrackLine
    cases h : getHomography s frameIndex with
    | none => rfl
    | some H =>
      cases hi : invertHomography H with
      | none => simp [hi]
      | some Hinv => simp [hi]
  · intro h
    unfold transformTrackLine
    rw [h]
  · intro H hH hdet
    unfold transformTrackLine
    rw [hH]
    simp [invertHomography_eq_none_of_det_small H hdet]

/-- Witness for C2: on a fresh service no entry is cached for frame 0,
so a one-point line passes through unchanged. -/
theorem transformTrackLine_length_and_passthrough_witness :
    transformTrackLine (initState true) [Point2D.mk 1 2] 0 = [Point2D.mk 1 2] :=
  (transformTrackLine_length_and_passthrough (initState true) [Point2D.mk 1 2] 0).2.1 rfl

/-- Claim C9: when the requested frame index equals the stored
reference frame index (exact integer equality), `computeHomography`
returns the identity matrix and caches it under that index, for every
backend and every input image. -/
theorem computeHomography_at_reference_identity (B : CvBackend) (s : HomographyState)
    (frameIndex : ℤ) (currentImage : ImageData)
    (h : s.referenceFrameIndex = some frameIndex) :
    (computeHomography B s frameIndex currentImage).1 = getIdentityHomography
    ∧ getHomography (computeHomography B s frameIndex currentImage).2 frameIndex
        = some getIdentityHomography := by
  unfold computeHomography
  rw [if_pos h]
  exact ⟨rfl, by simp [getHomography, setHFun]⟩

/-- Witness for C9: after setting frame 3 as reference, computing at
frame 3 yields the identity. -/
theorem computeHomography_at_reference_identity_witness :
    (computeHomography cvB (setReferenceFrame cvB (initState true) 3 img0) 3 img0).1
      = getIdentityHomography :=
  (computeHomography_at_reference_identity cvB
    (setReferenceFrame cvB (initState true) 3 img0) 3 img0 rfl).1

/-- Claim C3, failing scenario: `clear()` empties the cache and the
reference index/image signals but leaves the previously extracted
reference descriptors in place, so a subsequent `computeHomography`
matches against the stale descriptors and can return a fitted
non-identity matrix, unlike a freshly constructed service, which
returns the identity. -/
theorem clear_retains_reference_descriptors :
    (clearService (setReferenceFrame cvB (initState true) 0 img0)).referenceDescriptors
        = some descs4
    ∧ (computeHomography cvB (clearService (setReferenceFrame cvB (initState true) 0 img0))
        5 img0).1 = fittedH
    ∧ fittedH ≠ getIdentityHomography
    ∧ (computeHomography cvB (initState true) 5 img0).1 = getIdentityHomography := by
  refine ⟨rfl, ?_, by decide, rfl⟩
  decide

/-- Unfolding lemma: inversion of a matrix passing the determinant
guard yields the adjugate-over-determinant matrix. -/
theorem invertHomography_eq_some (M : Homography) (h : eps ≤ |detH M|) :
    invertHomography M = some
      ⟨1 / detH M * (M.h11 * M.h22 - M.h12 * M.h21),
       1 / detH M * (M.h02 * M.h21 - M.h01 * M.h22),
       1 / detH M * (M.h01 * M.h12 - M.h02 * M.h11),
       1 / detH M * (M.h12 * M.h20 - M.h10 * M.h22),
       1 / detH M * (M.h00 * M.h22 - M.h02 * M.h20),
       1 / detH M * (M.h02 * M.h10 - M.h00 * M.h12),
       1 / detH M * (M.h10 * M.h21 - M.h11 * M.h20),
       1 / detH M * (M.h01 * M.h20 - M.h00 * M.h21),
       1 / detH M * (M.h00 * M.h11 - M.h01 * M.h10)⟩ := by
  unfold invertHomography
  rw [if_neg (not_lt.mpr h)]

/-- Claim C7, counterexample: `bigH` is well-formed (its determinant
10^12 clears the 1e-10 guard), yet `invert(invert(bigH))` is not
defined, because the determinant of the inverse is 10^-12, inside the
guard. -/
theorem invert_invert_undefined_at_large_det :
    eps ≤ |detH bigH| ∧ (invertHomography bigH).bind invertHomography = none := by
  have h1 : eps ≤ |detH bigH| := by norm_num [eps, detH, bigH]
  refine ⟨h1, ?_⟩
  rw [invertHomography_eq_some bigH h1]
  rw [Option.some_bind]
  apply invertHomography_eq_none_of_det_small
  rw [abs_of_pos] <;> norm_num [detH, bigH, eps]

/-- The service's determinant formula is the matrix determinant. -/
theorem detH_toMatrix (H : Homography) : detH H = (toMatrix H).det := by
  simp [detH, toMatrix, Matrix.det_fin_three]
  ring

/-- Two homographies with the same matrix are equal. -/
theorem toMatrix_inj {A B : Homography} (h : toMatrix A = toMatrix B) : A = B := by
  have e : ∀ i j, toMatrix A i j = toMatrix B i j := fun i j => congrFun (congrFun h i) j
  refine Homography.ext ?_ ?_ ?_ ?_ ?_ ?_ ?_ ?_ ?_
  · simpa [toMatrix] using e 0 0
  · simpa [toMatrix] using e 0 1
  · simpa [toMatrix] using e 0 2
  · simpa [toMatrix] using e 1 0
  · simpa [toMatrix] using e 1 1
  · simpa [toMatrix] using e 1 2
  · simpa [toMatrix] using e 2 0
  · simpa [toMatrix] using e 2 1
  · simpa [toMatrix] using e 2 2

/-- A successful `invertHomography` computes exactly the nonsingular
matrix inverse. -/
theorem invertHomography_toMatrix (M K : Homography)
    (h : invertHomography M = some K) : toMatrix K = (toMatrix M)⁻¹ := by
  by_cases hc : |detH M| < eps
  · rw [invertHomography_eq_none_of_det_small M hc] at h
    exact Option.noConfusion h
  · rw [invertHomography_eq_some M (not_lt.mp hc)] at h
    injection h with h
    subst h
    rw [Matrix.inv_def, Ring.inverse_eq_inv, ← detH_toMatrix, toMatrix, toMatrix,
      Matrix.adjugate_fin_three, Matrix.smul_of]
    simp only [Matrix.smul_cons, smul_eq_mul, Matrix.smul_empty]
    ext i j
    fin_cases i <;> fin_cases j <;>
      · simp only [Matrix.cons_val', Matrix.cons_val_zero, Matrix.cons_val_one,
          Matrix.head_cons, Matrix.empty_val', Matrix.cons_val_fin_one,
          Matrix.head_fin_const, Matrix.cons_val_two, Matrix.tail_cons, Matrix.of_apply,
          Fin.mk_zero, Fin.mk_one]
        ring

/-- Claim C7, amended: for every matrix whose determinant magnitude
lies between 1e-10 and 1e10, both inversions are defined and the
round trip is exactly the original matrix (in the exact arithmetic of
the model). -/
theorem invert_invert_eq_self (M : Homography) (h1 : eps ≤ |detH M|)
    (h2 : |detH M| ≤ 10 ^ 10) :
    ∃ K, invertHomography M = some K ∧ invertHomography K = some M := by
  have hpos : (0 : ℚ) < |detH M| := lt_of_lt_of_le (by norm_num [eps]) h1
  have hne : detH M ≠ 0 := abs_ne_zero.mp (ne_of_gt hpos)
  obtain ⟨K, hK⟩ : ∃ K, invertHomography M = some K :=
    ⟨_, invertHomography_eq_some M h1⟩
  have hTK : toMatrix K = (toMatrix M)⁻¹ := invertHomography_toMatrix M K hK
  have hdetM : (toMatrix M).det = detH M := (detH_toMatrix M).symm
  have hUnit : IsUnit (toMatrix M).det := by
    rw [hdetM]
    exact isUnit_iff_ne_zero.mpr hne
  have hdetK : detH K = (detH M)⁻¹ := by
    rw [detH_toMatrix, hTK, Matrix.det_nonsing_inv, Ring.inverse_eq_inv, hdetM]
  have hKne : detH K ≠ 0 := by
    rw [hdetK]
    exact inv_ne_zero hne
  have hKeps : eps ≤ |detH K| := by
    rw [hdetK, abs_inv]
    calc eps = 1 / 10 ^ 10 := rfl
    _ ≤ 1 / |detH M| := one_div_le_one_div_of_le hpos h2
    _ = |detH M|⁻¹ := one_div _
  obtain ⟨L, hL⟩ : ∃ L, invertHomography K = some L :=
    ⟨_, invertHomography_eq_some K hKeps⟩
  have hTL : toMatrix L = toMatrix M := by
    rw [invertHomography_toMatrix K L hL, hTK,
      Matrix.nonsing_inv_nonsing_inv _ hUnit]
  refine ⟨K, hK, ?_⟩
  rw [hL]
  exact congrArg some (toMatrix_inj hTL)

/-- Witness for the amended C7: the concrete scale-2 matrix has
determinant 4, inside both bounds, and round-trips. -/
theorem invert_invert_eq_self_witness :
    ∃ K, invertHomography fittedH = some K ∧ invertHomography K = some fittedH :=
  invert_invert_eq_self fittedH (by norm_num [eps, detH, fittedH])
    (by norm_num [detH, fittedH])

/-- Looking up the frame just written. -/
theorem setHFun_self (cache : ℤ → Option Homography) (n : ℤ) (H : Homography) :
    setHFun cache n H n = some H := by
  simp [setHFun]

/-- Looking up any other frame is unchanged. -/
theorem setHFun_other (cache : ℤ → Option Homography) (n m : ℤ) (H : Homography)
    (h : m ≠ n) : setHFun cache n H m = cache m := by
  simp [setHFun, h]

/-- The backward scan finds nothing iff no index below the bound is
cached. -/
theorem scanBackAux_eq_none (cache : ℤ → Option Homography) (m : ℕ)
    (h : ∀ k : ℕ, k < m → cache (k : ℤ) = none) : scanBackAux cache m = none := by
  induction m with
  | zero => rfl
  | succ m ih =>
    unfold scanBackAux
    rw [h m (Nat.lt_succ_self m)]
    exact ih fun k hk => h k (Nat.lt_succ_of_lt hk)

/-- The backward scan returns the cached entry with the largest index
below the bound. -/
theorem scanBackAux_eq_some (cache : ℤ → Option Homography) (m j : ℕ) (H : Homography)
    (hj : j < m) (hcj : cache (j : ℤ) = some H)
    (hafter : ∀ k : ℕ, j < k → k < m → cache (k : ℤ) = none) :
    scanBackAux cache m = some H := by
  induction m with
  | zero => exact absurd hj (Nat.not_lt_zero j)
  | succ m ih =>
    unfold scanBackAux
    rcases Nat.lt_succ_iff_lt_or_eq.mp hj with hlt | heq
    · rw [hafter m hlt (Nat.lt_succ_self m)]
      exact ih hlt fun k hk1 hk2 => hafter k hk1 (Nat.lt_succ_of_lt hk2)
    · subst heq
      rw [hcj]

/-- Integer version: empty scan range or no entries below `n`. -/
theorem scanBack_eq_none (cache : ℤ → Option Homography) (n : ℤ)
    (h : ∀ k : ℤ, 0 ≤ k → k < n → cache k = none) : scanBack cache n = none := by
  unfold scanBack
  refine scanBackAux_eq_none cache n.toNat fun k hk => ?_
  exact h k (Int.ofNat_nonneg k) (by omega)

/-- Integer version: the scan finds the largest cached index below `n`. -/
theorem scanBack_eq_some (cache : ℤ → Option Homography) (n j : ℤ) (H : Homography)
    (h0 : 0 ≤ j) (hjn : j < n) (hcj : cache j = some H)
    (hafter : ∀ k : ℤ, j < k → k < n → cache k = none) :
    scanBack cache n = some H := by
  unfold scanBack
  refine scanBackAux_eq_some cache n.toNat j.toNat H (by omega) ?_ ?_
  · rwa [Int.toNat_of_nonneg h0]
  · intro k hk1 hk2
    exact hafter k (by omega) (by omega)

/-- Under any fallback trigger, the matching pipeline resolves to
`getLastValidHomography`, either by an explicit branch or by throwing
into the catch. -/
theorem computeHomographyTry_fallback (B : CvBackend) (s : HomographyState)
    (frameIndex : ℤ) (currentImage : ImageData)
    (hf : fallsBack B s currentImage) :
    computeHomographyTry B s frameIndex currentImage = .error ()
    ∨ computeHomographyTry B s frameIndex currentImage
        = .ok (getLastValidHomography s frameIndex) := by
  unfold computeHomographyTry
  rcases hf with hg | ⟨g, hg, hdc | ⟨kps, descs, hdc, hrest⟩⟩
  · left
    rw [hg]
    rfl
  · left
    rw [hg]
    show (B.detectAndCompute g >>= _) = _
    rw [hdc]
    rfl
  · rw [hg]
    show (B.detectAndCompute g >>= _) = _ ∨ (B.detectAndCompute g >>= _) = _
    rw [hdc]
    show (if descs.isEmpty || kps.length < 4 then _ else _) = _
      ∨ (if descs.isEmpty || kps.length < 4 then _ else _) = _
    rcases hrest with hemp | hlen | hm | ⟨ms, hm, hrest⟩
    · right
      rw [if_pos (by simp [hemp])]
      rfl
    · right
      rw [if_pos (by simp [hlen])]
      rfl
    · by_cases hcond : (descs.isEmpty || kps.length < 4 : Bool)
      · right
        rw [if_pos hcond]
        rfl
      · left
        rw [if_neg hcond]
        show (B.matchDesc descs _ >>= _) = _
        rw [hm]
        rfl
    · by_cases hcond : (descs.isEmpty || kps.length < 4 : Bool)
      · right
        rw [if_pos hcond]
        rfl
      · rw [if_neg hcond]
        show (B.matchDesc descs _ >>= _) = _ ∨ (B.matchDesc descs _ >>= _) = _
        rw [hm]
        rcases hrest with hflt | hfh | hfh
        · right
          show (if _ then _ else _) = _
          rw [if_pos (by simpa using hflt)]
          rfl
        · by_cases hflt : (ms.filter fun m => m.distance < 50).length < 4
          · right
            show (if _ then _ else _) = _
            rw [if_pos (by simpa using hflt)]
            rfl
          · left
            show (if _ then _ else _) = _
            rw [if_neg (by simpa using hflt)]
            show (B.findHomography _ >>= _) = _
            rw [hfh]
            rfl
        · by_cases hflt : (ms.filter fun m => m.distance < 50).length < 4
          · right
            show (if _ then _ else _) = _
            rw [if_pos (by simpa using hflt)]
            rfl
          · right
            show (if _ then _ else _) = _
            rw [if_neg (by simpa using hflt)]
            show (B.findHomography _ >>= _) = _
            rw [hfh]
            rfl

/-- Claim C1: at every frame where `computeHomography` falls back
(thrown backend call, too few keypoints, too few filtered matches, or
degenerate fit), the result is the backward scan of the cache from
`frameIndex - 1` down to `0`: the entry with the largest smaller index
is returned and re-cached under `frameIndex`, and the identity is
cached and returned when no such entry exists; in particular a frame
whose predecessor holds a cached fit inherits exactly that matrix. -/
theorem computeHomography_fallback_scans_backward (B : CvBackend) (s : HomographyState)
    (frameIndex : ℤ) (currentImage : ImageData)
    (h1 : s.referenceFrameIndex ≠ some frameIndex)
    (h2 : s.cvReady = true)
    (h3 : refDescriptorsMissing s = false)
    (hf : fallsBack B s currentImage) :
    computeHomography B s frameIndex currentImage = getLastValidHomography s frameIndex
    ∧ ((∀ k : ℤ, 0 ≤ k → k < frameIndex → s.homographies k = none) →
        (computeHomography B s frameIndex currentImage).1 = getIdentityHomography
        ∧ getHomography (computeHomography B s frameIndex currentImage).2 frameIndex
            = some getIdentityHomography)
    ∧ (∀ j H, 0 ≤ j → j < frameIndex → s.homographies j = some H →
        (∀ k : ℤ, j < k → k < frameIndex → s.homographies k = none) →
        (computeHomography B s frameIndex currentImage).1 = H
        ∧ getHomography (computeHomography B s frameIndex currentImage).2 frameIndex
            = some H)
    ∧ (∀ Hprev, 1 ≤ frameIndex → s.homographies (frameIndex - 1) = some Hprev →
        getHomography (computeHomography B s frameIndex currentImage).2 frameIndex
            = some Hprev
        ∧ getHomography (computeHomography B s frameIndex currentImage).2 (frameIndex - 1)
            = some Hprev) := by
  have hmain : computeHomography B s frameIndex currentImage
      = getLastValidHomography s frameIndex := by
    unfold computeHomography
    rw [if_neg h1, if_neg (by simp [h2, h3])]
    rcases computeHomographyTry_fallback B s frameIndex currentImage hf with he | ho
    · rw [he]
    · rw [ho]
  refine ⟨hmain, ?_, ?_, ?_⟩
  · intro hnone
    have hscan : scanBack s.homographies frameIndex = none :=
      scanBack_eq_none _ _ hnone
    rw [hmain]
    unfold getLastValidHomography
    rw [hscan]
    exact ⟨rfl, by simp [getHomography, setHFun]⟩
  · intro j H h0 hjn hcj hafter
    have hscan := scanBack_eq_some s.homographies frameIndex j H h0 hjn hcj hafter
    rw [hmain]
    unfold getLastValidHomography
    rw [hscan]
    exact ⟨rfl, by simp [getHomography, setHFun]⟩
  · intro Hprev hge hck
    have hscan := scanBack_eq_some s.homographies frameIndex (frameIndex - 1) Hprev
      (by omega) (by omega) hck (fun k hk1 hk2 => absurd hk2 (by omega))
    rw [hmain]
    unfold getLastValidHomography
    rw [hscan]
    constructor
    · simp [getHomography, setHFun]
    · show setHFun s.homographies frameIndex Hprev (frameIndex - 1) = some Hprev
      rw [setHFun_other _ _ _ _ (by omega)]
      exact hck

/-- Witness for C1: frame 3 holds the fitted matrix, frame 4 fails
fitting (one keypoint), and the fallback gives `getHomography 4 =
getHomography 3`. -/
theorem computeHomography_fallback_scans_backward_witness :
    getHomography (computeHomography cvBfail fallbackStateExample 4 img0).2 4 = some fittedH
    ∧ getHomography (computeHomography cvBfail fallbackStateExample 4 img0).2 3
        = some fittedH := by
  have h := (computeHomography_fallback_scans_backward cvBfail fallbackStateExample 4 img0
    (by decide) rfl rfl
    (Or.inr ⟨img0, rfl, Or.inr ⟨[⟨0, 0⟩], [[0]], rfl, Or.inr (Or.inl (by decide))⟩⟩)).2.2.2
  have h4 := h fittedH (by decide) (by decide)
  exact ⟨h4.1, h4.2⟩

/-- `getLastValidHomography` only writes the queried frame's entry and
returns exactly the value it caches. -/
theorem getLastValidHomography_shape (s : HomographyState) (n : ℤ) :
    ∃ X, (getLastValidHomography s n).1 = X
      ∧ (getLastValidHomography s n).2.homographies = setHFun s.homographies n X
      ∧ (getLastValidHomography s n).2.referenceFrameIndex = s.referenceFrameIndex
      ∧ (getLastValidHomography s n).2.referenceDescriptors = s.referenceDescriptors := by
  unfold getLastValidHomography
  cases scanBack s.homographies n with
  | none => exact ⟨getIdentityHomography, rfl, rfl, rfl, rfl⟩
  | some H => exact ⟨H, rfl, rfl, rfl, rfl⟩

/-- Total case analysis of the matching pipeline: it throws, resolves
through the fallback scan, or caches and returns a fitted matrix. -/
theorem computeHomographyTry_cases (B : CvBackend) (s : HomographyState) (n : ℤ)
    (img : ImageData) :
    computeHomographyTry B s n img = .error ()
    ∨ computeHomographyTry B s n img = .ok (getLastValidHomography s n)
    ∨ ∃ H, computeHomographyTry B s n img
        = .ok (H, { s with homographies := setHFun s.homographies n H }) := by
  unfold computeHomographyTry
  rcases hg : B.gray img with e | g
  · left
    rfl
  show (B.detectAndCompute g >>= _) = _ ∨ (B.detectAndCompute g >>= _) = _
    ∨ ∃ H, (B.detectAndCompute g >>= _) = _
  rcases hdc : B.detectAndCompute g with e | ⟨kps, descs⟩
  · left
    rfl
  show (if descs.isEmpty || kps.length < 4 then _ else _) = _
    ∨ (if descs.isEmpty || kps.length < 4 then _ else _) = _
    ∨ ∃ H, (if descs.isEmpty || kps.length < 4 then _ else _) = _
  by_cases hc1 : (descs.isEmpty || kps.length < 4 : Bool)
  · right
    left
    rw [if_pos hc1]
    rfl
  rw [if_neg hc1]
  show (B.matchDesc descs _ >>= _) = _ ∨ (B.matchDesc descs _ >>= _) = _
    ∨ ∃ H, (B.matchDesc descs _ >>= _) = _
  rcases hm : B.matchDesc descs (s.referenceDescriptors.getD []) with e | ms
  · left
    rfl
  show (if (ms.filter fun m => m.distance < 50).length < 4 then _ else _) = _
    ∨ (if (ms.filter fun m => m.distance < 50).length < 4 then _ else _) = _
    ∨ ∃ H, (if (ms.filter fun m => m.distance < 50).length < 4 then _ else _) = _
  by_cases hc2 : ((ms.filter fun m => m.distance < 50).length < 4)
  · right
    left
    rw [if_pos hc2]
    rfl
  rw [if_neg hc2]
  show (B.findHomography _ >>= _) = _ ∨ (B.findHomography _ >>= _) = _
    ∨ ∃ H, (B.findHomography _ >>= _) = _
  rcases hfh : B.findHomography (correspondences (ms.filter fun m => m.distance < 50)
      kps (s.referenceKeypoints.getD [])) with e | H?
  · left
    rfl
  cases H? with
  | none =>
    right
    left
    rfl
  | some H =>
    right
    right
    exact ⟨H, rfl⟩

/-- `computeHomography` writes only the queried frame's entry, leaves
the reference state alone, and writes the identity when the queried
frame is the reference frame or when no reference descriptors exist. -/
theorem computeHomography_shape (B : CvBackend) (s : HomographyState) (n : ℤ)
    (img : ImageData) :
    ∃ X, (computeHomography B s n img).2.homographies = setHFun s.homographies n X
      ∧ (computeHomography B s n img).2.referenceFrameIndex = s.referenceFrameIndex
      ∧ (computeHomography B s n img).2.referenceDescriptors = s.referenceDescriptors
      ∧ (s.referenceFrameIndex = some n → X = getIdentityHomography)
      ∧ (s.referenceDescriptors = none → X = getIdentityHomography) := by
  unfold computeHomography
  by_cases hc1 : s.referenceFrameIndex = some n
  · rw [if_pos hc1]
    exact ⟨getIdentityHomography, rfl, rfl, rfl, fun _ => rfl, fun _ => rfl⟩
  rw [if_neg hc1]
  by_cases hc2 : (!s.cvReady || refDescriptorsMissing s : Bool)
  · rw [if_pos hc2]
    exact ⟨getIdentityHomography, rfl, rfl, rfl, fun _ => rfl, fun _ => rfl⟩
  rw [if_neg hc2]
  have hdesc : s.referenceDescriptors ≠ none := by
    intro hx
    simp [refDescriptorsMissing, hx] at hc2
  rcases computeHomographyTry_cases B s n img with he | hfb | ⟨H, hok⟩
  · rw [he]
    obtain ⟨X, h1, h2, h3, h4⟩ := getLastValidHomography_shape s n
    exact ⟨X, h2, h3, h4, fun hx => absurd hx hc1, fun hx => absurd hx hdesc⟩
  · rw [hfb]
    obtain ⟨X, h1, h2, h3, h4⟩ := getLastValidHomography_shape s n
    exact ⟨X, h2, h3, h4, fun hx => absurd hx hc1, fun hx => absurd hx hdesc⟩
  · rw [hok]
    exact ⟨H, rfl, rfl, rfl, fun hx => absurd hx hc1, fun hx => absurd hx hdesc⟩

/-- `setReferenceFrame` never touches the homography cache and always
records the new reference index. -/
theorem setReferenceFrame_shape (B : CvBackend) (s : HomographyState) (n : ℤ)
    (img : ImageData) :
    (setReferenceFrame B s n img).homographies = s.homographies
    ∧ (setReferenceFrame B s n img).referenceFrameIndex = some n := by
  constructor <;>
    · simp only [setReferenceFrame]
      repeat' split
      all_goals rfl

/-- A non-`setReferenceFrame` operation preserves `noRefYet`. -/
theorem noRefYet_step (B : CvBackend) (s : HomographyState) (op : Op)
    (hop : isSetRef op = false) (h : noRefYet s) : noRefYet (stepOp B s op) := by
  obtain ⟨hdesc, hridx, hall⟩ := h
  cases op with
  | setRef n img => exact Bool.noConfusion hop
  | getH n => exact ⟨hdesc, hridx, hall⟩
  | clearOp =>
    refine ⟨hdesc, rfl, ?_⟩
    intro m H hm
    exact Option.noConfusion hm
  | compute n img =>
    obtain ⟨X, h1, h2, h3, h4, h5⟩ := computeHomography_shape B s n img
    refine ⟨h3.trans hdesc, h2.trans hridx, ?_⟩
    intro m H hm
    rw [show (stepOp B s (Op.compute n img)).homographies
        = setHFun s.homographies n X from h1] at hm
    unfold setHFun at hm
    by_cases hmn : m = n
    · rw [if_pos hmn] at hm
      injection hm with hm
      rw [← hm]
      exact h5 hdesc
    · rw [if_neg hmn] at hm
      exact hall m H hm

/-- A non-`setReferenceFrame` operation preserves the reference-entry
invariant. -/
theorem refEntryIdentity_step (B : CvBackend) (s : HomographyState) (op : Op)
    (hop : isSetRef op = false) (h : refEntryIdentity s) :
    refEntryIdentity (stepOp B s op) := by
  cases op with
  | setRef n img => exact Bool.noConfusion hop
  | getH n => exact h
  | clearOp =>
    intro r H hr hm
    exact Option.noConfusion hm
  | compute n img =>
    obtain ⟨X, h1, h2, h3, h4, h5⟩ := computeHomography_shape B s n img
    intro r H hr hm
    rw [show (stepOp B s (Op.compute n img)).referenceFrameIndex
        = s.referenceFrameIndex from h2] at hr
    rw [show (stepOp B s (Op.compute n img)).homographies
        = setHFun s.homographies n X from h1] at hm
    unfold setHFun at hm
    by_cases hrn : r = n
    · rw [if_pos hrn] at hm
      injection hm with hm
      rw [← hm]
      exact h4 (hrn ▸ hr)
    · rw [if_neg hrn] at hm
      exact h r H hr hm

/-- A `setReferenceFrame` from an all-identity cache establishes the
reference-entry invariant. -/
theorem refEntryIdentity_setRef (B : CvBackend) (s : HomographyState) (n : ℤ)
    (img : ImageData) (h : allIdentity s) :
    refEntryIdentity (setReferenceFrame B s n img) := by
  obtain ⟨h1, h2⟩ := setReferenceFrame_shape B s n img
  intro r H hr hm
  rw [h1] at hm
  exact h r H hm

/-- Counting helper: a leading non-`setReferenceFrame` op drops out. -/
theorem countSetRef_cons (op : Op) (ops : List Op) :
    countSetRef (op :: ops) = (if isSetRef op then 1 else 0) + countSetRef ops := by
  unfold countSetRef
  cases hop : isSetRef op <;> simp [List.filter, hop] <;> omega

/-- Claim C6, counterexample: set frame 0 as reference, fit frame 5
successfully, then move the reference to frame 5 without clearing: the
state has reference index 5 whose cached entry is the fitted matrix,
not the identity. -/
theorem refEntry_identity_violated :
    (runOps cvB (initState true)
        [Op.setRef 0 img0, Op.compute 5 img0, Op.setRef 5 img0]).referenceFrameIndex
      = some 5
    ∧ (runOps cvB (initState true)
        [Op.setRef 0 img0, Op.compute 5 img0, Op.setRef 5 img0]).homographies 5
      = some fittedH
    ∧ fittedH ≠ getIdentityHomography := by
  refine ⟨rfl, ?_, by decide⟩
  decide

/-- Claim C6, amended: in every state reachable by a sequence of
operations containing at most one `setReferenceFrame` call, whenever a
reference frame index is set and the cache holds an entry keyed by that
index, that entry is the identity matrix.  (With a second
`setReferenceFrame`, stale fitted entries can sit under the new
reference index, as the counterexample shows.) -/
theorem refEntry_identity_of_single_reference (B : CvBackend) (ready : Bool)
    (ops : List Op) (h : countSetRef ops ≤ 1) :
    refEntryIdentity (runOps B (initState ready) ops) := by
  suffices hgen : ∀ (ops : List Op) (s : HomographyState),
      (noRefYet s ∧ countSetRef ops ≤ 1)
      ∨ (refEntryIdentity s ∧ countSetRef ops = 0) →
      refEntryIdentity (runOps B s ops) by
    refine hgen ops (initState ready) (Or.inl ⟨?_, h⟩)
    exact ⟨rfl, rfl, fun m H hm => Option.noConfusion hm⟩
  intro ops
  induction ops with
  | nil =>
    intro s hs
    rcases hs with ⟨⟨hdesc, hridx, _⟩, _⟩ | ⟨hK, _⟩
    · intro r H hr hm
      have hr2 : s.referenceFrameIndex = some r := hr
      rw [hridx] at hr2
      exact Option.noConfusion hr2
    · exact hK
  | cons op rest ih =>
    intro s hs
    show refEntryIdentity (runOps B (stepOp B s op) rest)
    rcases hs with ⟨hP, hcount⟩ | ⟨hK, hcount⟩
    · rw [countSetRef_cons] at hcount
      cases hop : isSetRef op with
      | false =>
        refine ih (stepOp B s op) (Or.inl ⟨noRefYet_step B s op hop hP, ?_⟩)
        rw [hop] at hcount
        simpa using hcount
      | true =>
        cases op with
        | setRef n img =>
          refine ih _ (Or.inr ⟨refEntryIdentity_setRef B s n img hP.2.2, ?_⟩)
          rw [hop] at hcount
          simp only [if_true] at hcount
          omega
        | compute n img => exact Bool.noConfusion hop
        | getH n => exact Bool.noConfusion hop
        | clearOp => exact Bool.noConfusion hop
    · rw [countSetRef_cons] at hcount
      cases hop : isSetRef op with
      | false =>
        refine ih (stepOp B s op) (Or.inr ⟨refEntryIdentity_step B s op hop hK, ?_⟩)
        rw [hop] at hcount
        simpa using hcount
      | true =>
        rw [hop] at hcount
        simp only [if_true] at hcount
        exact absurd hcount (by omega)

/-- Witness for the amended C6: a single `setReferenceFrame` at frame 0
followed by `computeHomography` at the reference frame leaves the
reference entry cached, and the invariant shows it is the identity. -/
theorem refEntry_identity_of_single_reference_witness :
    refEntryIdentity (runOps cvB (initState true) [Op.setRef 0 img0, Op.compute 0 img0])
    ∧ (runOps cvB (initState true)
        [Op.setRef 0 img0, Op.compute 0 img0]).referenceFrameIndex = some 0
    ∧ (runOps cvB (initState true)
        [Op.setRef 0 img0, Op.compute 0 img0]).homographies 0
      = some getIdentityHomography :=
  ⟨refEntry_identity_of_single_reference cvB true _ (by decide), rfl, by decide⟩

/-- Rounding lies within a half-unit of the argument. -/
theorem jsRound_bounds (q : ℚ) :
    q - 1 / 2 < (jsRound q : ℚ) ∧ (jsRound q : ℚ) ≤ q + 1 / 2 := by
  unfold jsRound
  constructor
  · have h := Int.sub_one_lt_floor (q + 1 / 2)
    linarith
  · exact Int.floor_le (q + 1 / 2)

/-- The clipped search window always lies inside the frame. -/
theorem searchWindow_bounds (frameData : ImageData) (sel : CarSelection) :
    0 ≤ (searchWindow frameData sel).x0
    ∧ (searchWindow frameData sel).x0 + (searchWindow frameData sel).w
        ≤ (frameData.width : ℤ)
    ∧ 0 ≤ (searchWindow frameData sel).y0
    ∧ (searchWindow frameData sel).y0 + (searchWindow frameData sel).h
        ≤ (frameData.height : ℤ) := by
  simp only [searchWindow]
  refine ⟨le_max_left _ _, ?_, le_max_left _ _, ?_⟩ <;> omega

/-- Reduction of `updateOne` on an object whose template exists, whose
window passes the size check, and whose search succeeds. -/
theorem updateOne_reduce (B : TrackBackend) (frameData : ImageData)
    (templates : TemplateMap) (sel : CarSelection) (tpl : Template) (mm : MinMaxResult)
    (htpl : lookupTemplate templates sel.id = some tpl)
    (hw : (tpl.cols : ℤ) ≤ (searchWindow frameData sel).w)
    (hh : (tpl.rows : ℤ) ≤ (searchWindow frameData sel).h)
    (hmm : B.minMax frameData (searchWindow frameData sel) tpl = .ok mm) :
    updateOne B frameData templates sel =
      if mm.maxVal < trackingConfidenceThreshold then .ok sel
      else .ok { id := sel.id
                 center := ⟨(((searchWindow frameData sel).x0 + mm.maxLocX : ℤ) : ℚ)
                     + (tpl.cols : ℚ) / 2,
                   (((searchWindow frameData sel).y0 + mm.maxLocY : ℤ) : ℚ)
                     + (tpl.rows : ℚ) / 2⟩
                 bbox := ⟨(((searchWindow frameData sel).x0 + mm.maxLocX : ℤ) : ℚ),
                   (((searchWindow frameData sel).y0 + mm.maxLocY : ℤ) : ℚ),
                   (tpl.cols : ℚ), (tpl.rows : ℚ)⟩ } := by
  unfold updateOne
  rw [htpl]
  show (if (searchWindow frameData sel).w < (tpl.cols : ℤ)
      || (searchWindow frameData sel).h < (tpl.rows : ℤ) then _ else _) = _
  rw [if_neg (by
    simp only [Bool.or_eq_true, decide_eq_true_eq, not_or, not_lt]
    exact ⟨hw, hh⟩)]
  show (if (searchWindow frameData sel).w - tpl.cols + 1 ≤ 0
      || (searchWindow frameData sel).h - tpl.rows + 1 ≤ 0 then _ else _) = _
  rw [if_neg (by
    simp only [Bool.or_eq_true, decide_eq_true_eq, not_or, not_le]
    constructor <;> omega)]
  show (B.minMax frameData (searchWindow frameData sel) tpl >>= _) = _
  rw [hmm]
  rfl

/-- Claim C5: with a stored template, a sufficiently large clipped
window, and a completed correlation search, the best location is
accepted exactly when its score reaches the 0.7 threshold; acceptance
rewrites `center` to the template midpoint at the match and the
bounding box to the template footprint there, while a lower score
returns the input object exactly. -/
theorem updateOne_confidence_threshold (B : TrackBackend) (frameData : ImageData)
    (templates : TemplateMap) (sel : CarSelection) (tpl : Template) (mm : MinMaxResult)
    (htpl : lookupTemplate templates sel.id = some tpl)
    (hw : (tpl.cols : ℤ) ≤ (searchWindow frameData sel).w)
    (hh : (tpl.rows : ℤ) ≤ (searchWindow frameData sel).h)
    (hmm : B.minMax frameData (searchWindow frameData sel) tpl = .ok mm) :
    (mm.maxVal < trackingConfidenceThreshold →
      updateOne B frameData templates sel = .ok sel)
    ∧ (trackingConfidenceThreshold ≤ mm.maxVal →
      updateOne B frameData templates sel =
        .ok { id := sel.id
              center := ⟨(((searchWindow frameData sel).x0 + mm.maxLocX : ℤ) : ℚ)
                  + (tpl.cols : ℚ) / 2,
                (((searchWindow frameData sel).y0 + mm.maxLocY : ℤ) : ℚ)
                  + (tpl.rows : ℚ) / 2⟩
              bbox := ⟨(((searchWindow frameData sel).x0 + mm.maxLocX : ℤ) : ℚ),
                (((searchWindow frameData sel).y0 + mm.maxLocY : ℤ) : ℚ),
                (tpl.cols : ℚ), (tpl.rows : ℚ)⟩ }) := by
  rw [updateOne_reduce B frameData templates sel tpl mm htpl hw hh hmm]
  constructor
  · intro hlt
    rw [if_pos hlt]
  · intro hge
    rw [if_neg (not_lt.mpr hge)]

/-- The clipped window for the small object in the concrete frame. -/
theorem searchWindow_sel1 : searchWindow img0 sel1 = ⟨45, 45, 10, 10⟩ := by
  norm_num [searchWindow, jsRound, img0, sel1, trackingSearchMultiplier]

/-- The clipped window for the larger object in the concrete frame. -/
theorem searchWindow_sel2 : searchWindow img0 sel2 = ⟨40, 40, 20, 20⟩ := by
  norm_num [searchWindow, jsRound, img0, sel2, trackingSearchMultiplier]

/-- Witness for C5: a correlation score of exactly 0.69 leaves the
object unchanged. -/
theorem updateOne_confidence_threshold_witness :
    updateOne trackB69 img0 templatesTwo sel2 = .ok sel2 :=
  (updateOne_confidence_threshold trackB69 img0 templatesTwo sel2 tpl10
    ⟨69 / 100, 3, 3⟩ rfl (by rw [searchWindow_sel2]; decide)
    (by rw [searchWindow_sel2]; decide) rfl).1
    (by norm_num [trackingConfidenceThreshold])

/-- Claim C10: an accepted update yields a bounding box lying entirely
inside the frame, with the stored template's dimensions; the location
hypotheses state that `minMaxLoc` returns a position inside the
correlation result matrix. -/
theorem updateOne_accepted_bbox_within_frame (B : TrackBackend) (frameData : ImageData)
    (templates : TemplateMap) (sel : CarSelection) (tpl : Template) (mm : MinMaxResult)
    (htpl : lookupTemplate templates sel.id = some tpl)
    (hw : (tpl.cols : ℤ) ≤ (searchWindow frameData sel).w)
    (hh : (tpl.rows : ℤ) ≤ (searchWindow frameData sel).h)
    (hmm : B.minMax frameData (searchWindow frameData sel) tpl = .ok mm)
    (hacc : trackingConfidenceThreshold ≤ mm.maxVal)
    (hlx0 : 0 ≤ mm.maxLocX)
    (hlx1 : mm.maxLocX < (searchWindow frameData sel).w - tpl.cols + 1)
    (hly0 : 0 ≤ mm.maxLocY)
    (hly1 : mm.maxLocY < (searchWindow frameData sel).h - tpl.rows + 1) :
    ∀ res, updateOne B frameData templates sel = .ok res →
      0 ≤ res.bbox.x ∧ res.bbox.x + res.bbox.w ≤ (frameData.width : ℚ)
      ∧ 0 ≤ res.bbox.y ∧ res.bbox.y + res.bbox.h ≤ (frameData.height : ℚ)
      ∧ res.bbox.w = (tpl.cols : ℚ) ∧ res.bbox.h = (tpl.rows : ℚ) := by
  intro res hres
  rw [updateOne_reduce B frameData templates sel tpl mm htpl hw hh hmm,
    if_neg (not_lt.mpr hacc)] at hres
  injection hres with hres
  subst hres
  obtain ⟨hx0, hxw, hy0, hyh⟩ := searchWindow_bounds frameData sel
  refine ⟨?_, ?_, ?_, ?_, rfl, rfl⟩
  · show (0 : ℚ) ≤ (((searchWindow frameData sel).x0 + mm.maxLocX : ℤ) : ℚ)
    exact_mod_cast
      (by omega : (0 : ℤ) ≤ (searchWindow frameData sel).x0 + mm.maxLocX)
  · show (((searchWindow frameData sel).x0 + mm.maxLocX : ℤ) : ℚ) + (tpl.cols : ℚ)
      ≤ (frameData.width : ℚ)
    exact_mod_cast
      (by omega : (searchWindow frameData sel).x0 + mm.maxLocX + (tpl.cols : ℤ)
        ≤ (frameData.width : ℤ))
  · show (0 : ℚ) ≤ (((searchWindow frameData sel).y0 + mm.maxLocY : ℤ) : ℚ)
    exact_mod_cast
      (by omega : (0 : ℤ) ≤ (searchWindow frameData sel).y0 + mm.maxLocY)
  · show (((searchWindow frameData sel).y0 + mm.maxLocY : ℤ) : ℚ) + (tpl.rows : ℚ)
      ≤ (frameData.height : ℚ)
    exact_mod_cast
      (by omega : (searchWindow frameData sel).y0 + mm.maxLocY + (tpl.rows : ℤ)
        ≤ (frameData.height : ℤ))

/-- Witness for C10: the accepted 10x10 box at (43, 43) lies inside the
100x100 frame. -/
theorem updateOne_accepted_bbox_within_frame_witness :
    ∃ res, updateOne trackBacc img0 templatesTwo sel2 = .ok res
      ∧ 0 ≤ res.bbox.x ∧ res.bbox.x + res.bbox.w ≤ (img0.width : ℚ)
      ∧ 0 ≤ res.bbox.y ∧ res.bbox.y + res.bbox.h ≤ (img0.height : ℚ)
      ∧ res.bbox.w = (tpl10.cols : ℚ) ∧ res.bbox.h = (tpl10.rows : ℚ) := by
  have hres : updateOne trackBacc img0 templatesTwo sel2
      = .ok ⟨2, ⟨48, 48⟩, ⟨43, 43, 10, 10⟩⟩ := by
    rw [updateOne_reduce trackBacc img0 templatesTwo sel2 tpl10 ⟨1, 3, 3⟩ rfl
      (by rw [searchWindow_sel2]; decide) (by rw [searchWindow_sel2]; decide) rfl,
      if_neg (by norm_num [trackingConfidenceThreshold])]
    rw [searchWindow_sel2]
    norm_num [sel2, tpl10]
  exact ⟨_, hres, updateOne_accepted_bbox_within_frame trackBacc img0 templatesTwo sel2
    tpl10 ⟨1, 3, 3⟩ rfl (by rw [searchWindow_sel2]; decide)
    (by rw [searchWindow_sel2]; decide) rfl (by norm_num [trackingConfidenceThreshold])
    (by decide) (by rw [searchWindow_sel2]; decide) (by decide)
    (by rw [searchWindow_sel2]; decide) _ hres⟩

/-- Reduction of `updateOne` when the correlation search throws. -/
theorem updateOne_error (B : TrackBackend) (frameData : ImageData)
    (templates : TemplateMap) (sel : CarSelection) (tpl : Template)
    (htpl : lookupTemplate templates sel.id = some tpl)
    (hw : (tpl.cols : ℤ) ≤ (searchWindow frameData sel).w)
    (hh : (tpl.rows : ℤ) ≤ (searchWindow frameData sel).h)
    (hmm : B.minMax frameData (searchWindow frameData sel) tpl = .error ()) :
    updateOne B frameData templates sel = .error () := by
  unfold updateOne
  rw [htpl]
  show (if (searchWindow frameData sel).w < (tpl.cols : ℤ)
      || (searchWindow frameData sel).h < (tpl.rows : ℤ) then _ else _) = _
  rw [if_neg (by
    simp only [Bool.or_eq_true, decide_eq_true_eq, not_or, not_lt]
    exact ⟨hw, hh⟩)]
  show (if (searchWindow frameData sel).w - tpl.cols + 1 ≤ 0
      || (searchWindow frameData sel).h - tpl.rows + 1 ≤ 0 then _ else _) = _
  rw [if_neg (by
    simp only [Bool.or_eq_true, decide_eq_true_eq, not_or, not_le]
    constructor <;> omega)]
  show (B.minMax frameData (searchWindow frameData sel) tpl >>= _) = _
  rw [hmm]
  rfl

/-- Claim C4, amended: the catch in `updateTrackedPositions` wraps the
whole per-object loop, so an error anywhere in the batch returns the
entire input list unchanged, and only an error-free batch returns the
per-object results. -/
theorem updateTrackedPositions_batch_abort (B : TrackBackend) (templates : TemplateMap)
    (frameData : ImageData) (selections : List CarSelection) :
    (updateBatch B frameData templates selections = .error () →
      updateTrackedPositions B templates frameData selections = selections)
    ∧ (∀ l, updateBatch B frameData templates selections = .ok l →
        templates ≠ [] →
        updateTrackedPositions B templates frameData selections = l) := by
  unfold updateTrackedPositions
  by_cases ht : templates.length = 0
  · rw [if_pos ht]
    refine ⟨fun _ => rfl, fun l hl hne => ?_⟩
    exact absurd (List.length_eq_zero.mp ht) hne
  · rw [if_neg ht]
    refine ⟨fun he => ?_, fun l hl hne => ?_⟩
    · rw [he]
    · rw [hl]

/-- In the concrete two-object batch, the first object's search throws. -/
theorem batch_error_example :
    updateBatch trackBthrow img0 templatesTwo [sel1, sel2] = .error () := by
  have h1 : updateOne trackBthrow img0 templatesTwo sel1 = .error () :=
    updateOne_error trackBthrow img0 templatesTwo sel1 tpl5 rfl
      (by rw [searchWindow_sel1]; decide) (by rw [searchWindow_sel1]; decide) rfl
  unfold updateBatch
  show (trackBthrow.gray img0 >>= _) = _
  rw [show trackBthrow.gray img0 = .ok () from rfl]
  show ([sel1, sel2].mapM (updateOne trackBthrow img0 templatesTwo)) = _
  rw [List.mapM_cons, h1]
  rfl

/-- The second object's update, run alone, accepts the shifted match. -/
theorem updateOne_sel2_ok :
    updateOne trackBthrow img0 templatesTwo sel2
      = .ok ⟨2, ⟨48, 48⟩, ⟨43, 43, 10, 10⟩⟩ := by
  rw [updateOne_reduce trackBthrow img0 templatesTwo sel2 tpl10 ⟨1, 3, 3⟩ rfl
    (by rw [searchWindow_sel2]; decide) (by rw [searchWindow_sel2]; decide) rfl,
    if_neg (by norm_num [trackingConfidenceThreshold])]
  rw [searchWindow_sel2]
  norm_num [sel2, tpl10]

/-- Claim C4, counterexample: the first object's search throws, and the
returned batch is the whole input unchanged, although the second
object's update would have succeeded with a different position — so
the error is not confined to the failing object. -/
theorem updateTrackedPositions_error_aborts_batch :
    updateTrackedPositions trackBthrow templatesTwo img0 [sel1, sel2] = [sel1, sel2]
    ∧ updateOne trackBthrow img0 templatesTwo sel2
        = .ok ⟨2, ⟨48, 48⟩, ⟨43, 43, 10, 10⟩⟩
    ∧ (⟨2, ⟨48, 48⟩, ⟨43, 43, 10, 10⟩⟩ : CarSelection) ≠ sel2 := by
  refine ⟨?_, updateOne_sel2_ok, by decide⟩
  unfold updateTrackedPositions
  rw [if_neg (by decide), batch_error_example]

/-- Witness for the amended C4: the concrete throwing batch returns the
input selections unchanged. -/
theorem updateTrackedPositions_batch_abort_witness :
    updateTrackedPositions trackBthrow templatesTwo img0 [sel1, sel2] = [sel1, sel2] :=
  (updateTrackedPositions_batch_abort trackBthrow templatesTwo img0 [sel1, sel2]).1
    batch_error_example

/-- The clipped window for the fractional-box object. -/
theorem searchWindow_sel84 : searchWindow img0 sel84 = ⟨40, 40, 21, 21⟩ := by
  norm_num [searchWindow, jsRound, img0, sel84, trackingSearchMultiplier]

/-- Claim C8, counterexample: for a tracked object with a 10x10
template but bounding-box width 10.4, the code's search window is 21
pixels wide although it lies strictly inside the frame, while the
template's width times the 2.0 multiplier is 20 — the window is sized
from the bounding box, not from the template. -/
theorem searchWindow_not_template_scaled :
    lookupTemplate templates84 sel84.id = some tpl10
    ∧ (searchWindow img0 sel84).w = 21
    ∧ 0 < (searchWindow img0 sel84).x0
    ∧ (searchWindow img0 sel84).x0 + (searchWindow img0 sel84).w < (img0.width : ℤ)
    ∧ (searchWindow img0 sel84).w ≠ 2 * (tpl10.cols : ℤ) := by
  refine ⟨rfl, ?_, ?_, ?_, ?_⟩ <;> rw [searchWindow_sel84] <;> decide

/-- Claim C8, amended: the search window is a rectangle whose width and
height are the object's bounding-box width and height (not the
template's) each scaled by the 2.0 multiplier and clamped to the frame
dimensions, positioned around the object's center (within the half-unit
rounding when unclipped) and clipped to the frame bounds; an object
whose clipped window is smaller than the template in either dimension
is retained unchanged. -/
theorem searchWindow_from_bbox (B : TrackBackend) (frameData : ImageData)
    (templates : TemplateMap) (sel : CarSelection) (tpl : Template)
    (htpl : lookupTemplate templates sel.id = some tpl) :
    (0 ≤ (searchWindow frameData sel).x0
      ∧ (searchWindow frameData sel).x0 + (searchWindow frameData sel).w
          ≤ (frameData.width : ℤ)
      ∧ 0 ≤ (searchWindow frameData sel).y0
      ∧ (searchWindow frameData sel).y0 + (searchWindow frameData sel).h
          ≤ (frameData.height : ℤ))
    ∧ ((searchWindow frameData sel).w ≤ jsRound (sel.bbox.w * trackingSearchMultiplier)
      ∧ (searchWindow frameData sel).h ≤ jsRound (sel.bbox.h * trackingSearchMultiplier))
    ∧ (∀ sW : ℤ,
        sW = min (jsRound (sel.bbox.w * trackingSearchMultiplier)) (frameData.width : ℤ) →
        0 ≤ jsRound (sel.center.x - (sW : ℚ) / 2) →
        jsRound (sel.center.x - (sW : ℚ) / 2) + sW ≤ (frameData.width : ℤ) →
        (searchWindow frameData sel).w = sW
        ∧ |((searchWindow frameData sel).x0 : ℚ) + (sW : ℚ) / 2 - sel.center.x| ≤ 1 / 2)
    ∧ (∀ sH : ℤ,
        sH = min (jsRound (sel.bbox.h * trackingSearchMultiplier)) (frameData.height : ℤ) →
        0 ≤ jsRound (sel.center.y - (sH : ℚ) / 2) →
        jsRound (sel.center.y - (sH : ℚ) / 2) + sH ≤ (frameData.height : ℤ) →
        (searchWindow frameData sel).h = sH
        ∧ |((searchWindow frameData sel).y0 : ℚ) + (sH : ℚ) / 2 - sel.center.y| ≤ 1 / 2)
    ∧ ((searchWindow frameData sel).w < (tpl.cols : ℤ)
        ∨ (searchWindow frameData sel).h < (tpl.rows : ℤ) →
        updateOne B frameData templates sel = .ok sel) := by
  refine ⟨searchWindow_bounds frameData sel, ?_, ?_, ?_, ?_⟩
  · constructor <;> (simp only [searchWindow]; omega)
  · intro sW hsW hpos hfit
    subst hsW
    have hx0 : (searchWindow frameData sel).x0
        = jsRound (sel.center.x
          - ((min (jsRound (sel.bbox.w * trackingSearchMultiplier))
              (frameData.width : ℤ) : ℤ) : ℚ) / 2) := by
      simp only [searchWindow]
      omega
    have hweq : (searchWindow frameData sel).w
        = min (jsRound (sel.bbox.w * trackingSearchMultiplier)) (frameData.width : ℤ) := by
      simp only [searchWindow]
      omega
    refine ⟨hweq, ?_⟩
    rw [hx0]
    have hb := jsRound_bounds (sel.center.x
      - ((min (jsRound (sel.bbox.w * trackingSearchMultiplier))
          (frameData.width : ℤ) : ℤ) : ℚ) / 2)
    rw [abs_le]
    constructor <;> linarith [hb.1, hb.2]
  · intro sH hsH hpos hfit
    subst hsH
    have hy0 : (searchWindow frameData sel).y0
        = jsRound (sel.center.y
          - ((min (jsRound (sel.bbox.h * trackingSearchMultiplier))
              (frameData.height : ℤ) : ℤ) : ℚ) / 2) := by
      simp only [searchWindow]
      omega
    have hheq : (searchWindow frameData sel).h
        = min (jsRound (sel.bbox.h * trackingSearchMultiplier)) (frameData.height : ℤ) := by
      simp only [searchWindow]
      omega
    refine ⟨hheq, ?_⟩
    rw [hy0]
    have hb := jsRound_bounds (sel.center.y
      - ((min (jsRound (sel.bbox.h * trackingSearchMultiplier))
          (frameData.height : ℤ) : ℤ) : ℚ) / 2)
    rw [abs_le]
    constructor <;> linarith [hb.1, hb.2]
  · intro h
    unfold updateOne
    rw [htpl]
    show (if (searchWindow frameData sel).w < (tpl.cols : ℤ)
        || (searchWindow frameData sel).h < (tpl.rows : ℤ) then _ else _) = _
    rw [if_pos (by
      simp only [Bool.or_eq_true, decide_eq_true_eq]
      exact h)]

/-- Witness for the amended C8: the 10x10-box object's window is the
bbox-scaled 20 pixels wide and 20 pixels tall, centered on the object
within half a unit in both dimensions. -/
theorem searchWindow_from_bbox_witness :
    ((searchWindow img0 sel2).w = 20
      ∧ |((searchWindow img0 sel2).x0 : ℚ) + ((20 : ℤ) : ℚ) / 2 - sel2.center.x| ≤ 1 / 2)
    ∧ (searchWindow img0 sel2).h = 20
    ∧ |((searchWindow img0 sel2).y0 : ℚ) + ((20 : ℤ) : ℚ) / 2 - sel2.center.y| ≤ 1 / 2 :=
  ⟨(searchWindow_from_bbox trackBacc img0 templatesTwo sel2 tpl10 rfl).2.2.1 20
    (by norm_num [jsRound, sel2, img0, trackingSearchMultiplier])
    (by norm_num [jsRound, sel2, img0, trackingSearchMultiplier])
    (by norm_num [jsRound, sel2, img0, trackingSearchMultiplier]),
   (searchWindow_from_bbox trackBacc img0 templatesTwo sel2 tpl10 rfl).2.2.2.1 20
    (by norm_num [jsRound, sel2, img0, trackingSearchMultiplier])
    (by norm_num [jsRound, sel2, img0, trackingSearchMultiplier])
    (by norm_num [jsRound, sel2, img0, trackingSearchMultiplier])⟩
